import Mathlib

set_option maxRecDepth 8000

/-!
Verification of the knowledge-retrieval engine of BrightgenGenetics.

Shallow embedding of the Python sources under
`backend/app/agents/planner_agent/` (rag/retriever.py, rag/vector_store.py,
rag/documents.py, knowledge/loader.py, knowledge/preprocessor.py,
enhanced_agent.py) and `backend/app/agents/chatbot_agent/enhanced_agent.py`.

Pure functions become Lean functions; stateful code is explicit state
passing; fallible calls are `Except`; Python `float` similarity scores are
modelled as rationals.
-/

namespace BrightGen

/-- A metadata value: Python dict values are strings or numbers here. -/
inductive MetaValue where
  | str (s : String)
  | nat (n : Nat)
  | rat (q : ℚ)
deriving DecidableEq, Repr

/-- A LangChain `Document`: page content plus a metadata map, modelled as an
association list. -/
structure Document where
  page_content : String
  metadata : List (String × MetaValue)
deriving DecidableEq, Repr

/-- Python `dict.update` / `d[k] = v` on the association-list model: replace
the value at the first occurrence of the key, append when absent. -/
def setMeta : List (String × MetaValue) → String → MetaValue →
    List (String × MetaValue)
  | [], k, v => [(k, v)]
  | p :: rest, k, v => if p.1 = k then (k, v) :: rest else p :: setMeta rest k v

/-- Python `dict.get(k)`. -/
def getMeta (m : List (String × MetaValue)) (k : String) : Option MetaValue :=
  (m.find? (fun p => p.1 = k)).map Prod.snd

/-! Section: preprocessor.py, DocumentPreprocessor._classify_content_type -/

/-- Whether `s` occurs at the head of `t`. -/
def leadsWith : List Char → List Char → Bool
  | [], _ => true
  | _ :: _, [] => false
  | a :: as, b :: bs => a = b && leadsWith as bs

/-- Whether `s` occurs somewhere inside `t` (as a contiguous run). -/
def hasSub (s : List Char) : List Char → Bool
  | [] => s.isEmpty
  | c :: rest => leadsWith s (c :: rest) || hasSub s rest

/-- Python `sub in text` substring containment. -/
def containsSub (text sub : String) : Bool :=
  hasSub sub.data text.data

/-- Python str.lower, mapping each character to lower case. -/
def lowerString (s : String) : String :=
  ⟨s.data.map Char.toLower⟩

/-- Research-paper indicator keywords of `_classify_content_type`. -/
def research_indicators : List String :=
  ["study", "research", "participants", "methodology", "results", "conclusion"]

/-- Activity-guide indicator keywords of `_classify_content_type`. -/
def activity_indicators : List String :=
  ["activity", "game", "play", "exercise", "practice", "instructions"]

/-- Guideline indicator keywords of `_classify_content_type`. -/
def guideline_indicators : List String :=
  ["guideline", "recommendation", "should", "important", "key points"]

/-- Python sum of 1 for each indicator contained in text_lower. -/
def indicatorScore (text_lower : String) (indicators : List String) : Nat :=
  (indicators.filter (fun ind => containsSub text_lower ind)).length

/-- Embedding of `DocumentPreprocessor._classify_content_type`.  The Python
expression max over the scores dict, keyed by scores.get, with the dict built
in insertion order research, activity, guideline, returns the FIRST key
attaining the maximum. -/
def classifyFromScores (research_score activity_score guideline_score : Nat) :
    String :=
  let primary : String × Nat :=
    if research_score ≥ activity_score ∧ research_score ≥ guideline_score then
      ("research", research_score)
    else if activity_score ≥ guideline_score then
      ("activity", activity_score)
    else
      ("guideline", guideline_score)
  if primary.2 = 0 then "general" else primary.1

/-- Full `_classify_content_type`: score the lowercased text against the
three keyword sets, then pick as above. -/
def classify_content_type (text : String) : String :=
  let text_lower := lowerString text
  classifyFromScores
    (indicatorScore text_lower research_indicators)
    (indicatorScore text_lower activity_indicators)
    (indicatorScore text_lower guideline_indicators)

/-! Section: preprocessor.py, DocumentPreprocessor.filter_low_quality_chunks -/

/-- Number of characters matching the regex `[a-zA-Z]`. -/
def alphaCount (s : String) : Nat :=
  (s.data.filter (fun c =>
    (('a' ≤ c ∧ c ≤ 'z') ∨ ('A' ≤ c ∧ c ≤ 'Z')))).length

/-- The alphabetic ratio, count of [a-zA-Z] characters over len(content):
Python raises `ZeroDivisionError` on empty content, modelled as `Except`. -/
def alphaRatio (content : String) : Except String ℚ :=
  if content.length = 0 then .error "ZeroDivisionError"
  else .ok ((alphaCount content : ℚ) / (content.length : ℚ))

/-- Python metadata.get of relevance_score with default 1.0. -/
def getRelevance (doc : Document) : ℚ :=
  match getMeta doc.metadata "relevance_score" with
  | some (.rat q) => q
  | some (.nat n) => (n : ℚ)
  | _ => 1

/-- Per-document loop body of `filter_low_quality_chunks`: whether the
document is kept.  The alphabetic-ratio division is only reached after the
length and relevance checks, and a division error propagates. -/
def passesQuality (doc : Document) (min_length : Nat) (min_relevance : ℚ) :
    Except String Bool :=
  if doc.page_content.length < min_length then .ok false
  else if getRelevance doc < min_relevance then .ok false
  else
    match alphaRatio doc.page_content with
    | .error e => .error e
    | .ok r => if r < 1 / 2 then .ok false else .ok true

/-- Embedding of `DocumentPreprocessor.filter_low_quality_chunks` (defaults
are min_length 50 and min_relevance 0.1). -/
def filter_low_quality_chunks (documents : List Document)
    (min_length : Nat) (min_relevance : ℚ) : Except String (List Document) :=
  match documents with
  | [] => .ok []
  | doc :: rest =>
      match passesQuality doc min_length min_relevance with
      | .error e => .error e
      | .ok keep =>
          match filter_low_quality_chunks rest min_length min_relevance with
          | .error e => .error e
          | .ok tail => .ok (if keep then doc :: tail else tail)

/-! Section: documents.py, DocumentProcessor.chunk_documents -/

/-- Embedding of `DocumentProcessor.chunk_documents`: the underlying
`RecursiveCharacterTextSplitter.split_documents` call is abstracted as a
fallible `splitter` parameter.  Empty input returns `[]`; a splitter failure
is caught and the input is returned unchanged; otherwise each chunk gets
`chunk_id` (its index) and `total_chunks`. -/
def chunk_documents (splitter : List Document → Except String (List Document))
    (documents : List Document) : List Document :=
  if documents.isEmpty then []
  else
    match splitter documents with
    | .ok chunked =>
        chunked.mapIdx (fun i doc =>
          let m1 := setMeta doc.metadata "chunk_id" (MetaValue.nat i)
          let m2 := setMeta m1 "total_chunks" (MetaValue.nat chunked.length)
          { doc with metadata := m2 })
    | .error _ => documents

/-! Section: vector_store.py, ChromaVectorStore.embed_documents -/

/-- Outcome of one `embed_documents` call: the collection contents afterwards,
whether the empty-input warning was logged, and whether the underlying
storage (`self.db.add_documents`) was touched at all. -/
structure EmbedOutcome where
  store : List Document
  warned : Bool
  storage_accessed : Bool
deriving DecidableEq, Repr

/-- Embedding of `ChromaVectorStore.embed_documents`: the underlying
`self.db.add_documents` call is abstracted as the fallible `add` parameter
(taking current contents and the new documents).  Empty input is a warned
no-op that never touches storage; a storage failure is logged and re-raised
(`raise`), modelled as `Except.error`. -/
def embed_documents (add : List Document → List Document → Except String (List Document))
    (store : List Document) (documents : List Document) :
    Except String EmbedOutcome :=
  if documents.isEmpty then .ok ⟨store, true, false⟩
  else
    match add store documents with
    | .ok newStore => .ok ⟨newStore, false, true⟩
    | .error e => .error e

/-! Section: loader.py, KnowledgeLoader.load_all_knowledge and load_category -/

/-- Outcome of one loader call: collection contents afterwards, the returned
count, and how many times `embed_documents` (re-embedding) was invoked. -/
structure LoadOutcome where
  store : List Document
  returned : Nat
  embed_calls : Nat
deriving DecidableEq, Repr

/-- Embedding of `KnowledgeLoader.load_all_knowledge`.  Here `processed` abstracts
`document_processor.process_knowledge_base(...)`; the collection is the
explicit `store` list, whose length is `get_collection_count()`.
`delete_collection()` empties it. -/
def load_all_knowledge (processed : List Document) (force_reload : Bool)
    (store : List Document) : LoadOutcome :=
  let store := if force_reload then [] else store
  let existing_count := store.length
  if existing_count > 0 ∧ ¬force_reload then ⟨store, existing_count, 0⟩
  else if processed.isEmpty then ⟨store, 0, 0⟩
  else
    let store := store ++ processed
    ⟨store, store.length, 1⟩

/-- Outcome of one `load_category` call; `delete_warnings` counts the
warnings logged by the unimplemented `_remove_category_documents`. -/
structure CatLoadOutcome where
  store : List Document
  returned : Nat
  embed_calls : Nat
  delete_warnings : Nat
deriving DecidableEq, Repr

/-- Embedding of `KnowledgeLoader.load_category`.  Here `catExists` abstracts
`os.path.exists(category_path)`, `dirDocs` abstracts
`document_processor.load_directory(category_path)`, and the chunker is the
same `chunk_documents` as in documents.py.  Note the source performs no
count check: it always re-chunks and re-embeds; `_remove_category_documents`
only logs a warning and deletes nothing. -/
def load_category (catExists : Bool) (dirDocs : List Document)
    (splitter : List Document → Except String (List Document))
    (force_reload : Bool) (store : List Document) : CatLoadOutcome :=
  if ¬catExists then ⟨store, 0, 0, 0⟩
  else if dirDocs.isEmpty then ⟨store, 0, 0, 0⟩
  else
    let chunked_docs := chunk_documents splitter dirDocs
    let warns := if force_reload then 1 else 0
    ⟨store ++ chunked_docs, chunked_docs.length, 1, warns⟩

/-! Section: retriever.py, RAGRetriever retrieval paths.  The vector store
is abstracted as a `search` function from query and k to scored documents,
standing for `similarity_search_with_score`. -/

/-- One entry of the result lists built by the retrieval loops: the dict
with content, metadata, similarity_score, query_used. -/
structure RItem where
  content : String
  metadata : List (String × MetaValue)
  similarity_score : ℚ
  query_used : String
deriving DecidableEq, Repr

/-- The content fingerprint used for deduplication: the source computes
hash of the first 100 characters; content identity on that prefix is what
the hash stands for. -/
def fingerprintOf (content : String) : String :=
  content.take 100

/-- Stable insertion of one item into a list sorted by descending
similarity_score. -/
def insertDesc (x : RItem) : List RItem → List RItem
  | [] => [x]
  | y :: ys =>
      if y.similarity_score ≤ x.similarity_score then x :: y :: ys
      else y :: insertDesc x ys

/-- Python list.sort with key similarity_score and reverse true: a stable
sort by descending score. -/
def sortDesc : List RItem → List RItem
  | [] => []
  | x :: xs => insertDesc x (sortDesc xs)

/-- The four reformulated queries of `_retrieve_trait_context`. -/
def trait_queries (trait : String) : List String :=
  [trait,
   trait ++ " development",
   trait ++ " activities",
   trait ++ " intervention strategies"]

/-- Age qualification of a query in `_retrieve_trait_context`: Python
`if age:` is falsy for `None` and for `0`. -/
def ageQualify (age : Option Nat) (query : String) : String :=
  match age with
  | some a =>
      if a ≠ 0 then
        query ++ " age " ++ toString (a / 12) ++ " years child development"
      else query
  | none => query

/-- The stream of (query_used, document, score) triples examined by the
loops of `_retrieve_trait_context`, in order: for each reformulated query,
the per-query search (with k set to integer k over 4, plus 1) results. -/
def traitTriples (search : String → Nat → List (Document × ℚ))
    (trait : String) (age : Option Nat) (k : Nat) :
    List (String × Document × ℚ) :=
  (trait_queries trait).flatMap (fun query =>
    let age_query := ageQualify age query
    (search age_query (k / (trait_queries trait).length + 1)).map
      (fun ds => (age_query, ds.1, ds.2)))

/-- The result-dict built from one examined triple. -/
def mkRItem (t : String × Document × ℚ) : RItem :=
  ⟨t.2.1.page_content, t.2.1.metadata, t.2.2, t.1⟩

/-- The filter-and-dedup accumulation loop of `_retrieve_trait_context`:
skip results below the score threshold, then skip results whose content
fingerprint was already seen, recording fingerprints of kept results. -/
def traitAccum (thr : ℚ) :
    List String → List (String × Document × ℚ) → List RItem
  | _, [] => []
  | seen, t :: rest =>
      if t.2.2 < thr then traitAccum thr seen rest
      else if fingerprintOf t.2.1.page_content ∈ seen then
        traitAccum thr seen rest
      else
        mkRItem t :: traitAccum thr (fingerprintOf t.2.1.page_content :: seen) rest

/-- The merged, thresholded, deduplicated result list of
`_retrieve_trait_context` (before ranking and truncation). -/
def traitMerged (search : String → Nat → List (Document × ℚ))
    (trait : String) (age : Option Nat) (k : Nat) (thr : ℚ) : List RItem :=
  traitAccum thr [] (traitTriples search trait age k)

/-- Embedding of `RAGRetriever._retrieve_trait_context` (default
min_score_threshold 0.7): merge, threshold, dedup, sort by score
descending, return the top k. -/
def retrieve_trait_context (search : String → Nat → List (Document × ℚ))
    (trait : String) (age : Option Nat) (k : Nat) (thr : ℚ) : List RItem :=
  (sortDesc (traitMerged search trait age k thr)).take k

/-- The three queries of `_retrieve_age_context`. -/
def age_queries (age : Nat) : List String :=
  let age_years := age / 12
  [toString age_years ++ " year old development milestones",
   "early childhood " ++ toString age_years ++ "-" ++ toString (age_years + 1)
     ++ " years",
   "developmental activities " ++ toString age ++ " months old"]

/-- The raw result list collected by the search loop of
`_retrieve_age_context`: every scored result of every query is appended,
with NO score-threshold filtering. -/
def ageResults (search : String → Nat → List (Document × ℚ))
    (age : Nat) (k : Nat) : List RItem :=
  (age_queries age).flatMap (fun query =>
    (search query (k / (age_queries age).length + 1)).map
      (fun ds => ⟨ds.1.page_content, ds.1.metadata, ds.2, query⟩))

/-- The dedup pass shared by `_retrieve_age_context` and
`_retrieve_age_specific_activities`: keep the first occurrence of each
content fingerprint. -/
def dedupByFingerprint : List String → List RItem → List RItem
  | _, [] => []
  | seen, r :: rest =>
      if fingerprintOf r.content ∈ seen then dedupByFingerprint seen rest
      else r :: dedupByFingerprint (fingerprintOf r.content :: seen) rest

/-- Embedding of `RAGRetriever._retrieve_age_context`: collect all results
of the three queries (no score filter), dedup, sort descending, top k. -/
def retrieve_age_context (search : String → Nat → List (Document × ℚ))
    (age : Nat) (k : Nat) : List RItem :=
  (sortDesc (dedupByFingerprint [] (ageResults search age k))).take k

/-! Section: retriever.py build_context_prompt and enhanced_agent.py
generate_initial_log. -/

/-- Python truthiness of a metadata value (for metadata.get of title). -/
def mvTruthy : Option MetaValue → Bool
  | some (.str s) => s != ""
  | some (.nat n) => n != 0
  | some (.rat q) => q != 0
  | none => false

/-- String rendering of a metadata value inside an f-string. -/
def mvToString : Option MetaValue → String
  | some (.str s) => s
  | some (.nat n) => toString n
  | some (.rat q) => toString q
  | none => "None"

/-- The retrieval context returned by `retrieve_for_traits`, as consumed by
`build_context_prompt`. -/
structure RagContext where
  trait_contexts : List (String × List RItem)
  general_context : List RItem
  age_specific_context : List RItem
deriving DecidableEq, Repr

/-- Python newline-join of a list of parts. -/
def joinNL : List String → String
  | [] => ""
  | [x] => x
  | x :: y :: xs => x ++ "\n" ++ joinNL (y :: xs)

/-- The optional source line appended per trait item when its title
metadata is truthy. -/
def titleLine (item : RItem) : List String :=
  if mvTruthy (getMeta item.metadata "title") then
    ["  Source: " ++ mvToString (getMeta item.metadata "title")]
  else []

/-- The trait-specific section of `build_context_prompt`. -/
def traitSection (context : RagContext) : List String :=
  if context.trait_contexts.isEmpty then []
  else
    "=== TRAIT-SPECIFIC RESEARCH CONTEXT ===" ::
    (context.trait_contexts.flatMap (fun tc =>
      if tc.2.isEmpty then []
      else
        ("\n📊 Research for " ++ tc.1.toUpper ++ ":") ::
        ((tc.2.take 2).flatMap (fun item =>
          ("• " ++ item.content.take 300 ++ "...") :: titleLine item))))

/-- The general-age section of `build_context_prompt`. -/
def generalSection (context : RagContext) : List String :=
  if context.general_context.isEmpty then []
  else
    "\n=== AGE-APPROPRIATE DEVELOPMENT CONTEXT ===" ::
    ((context.general_context.take 2).map
      (fun item => "• " ++ item.content.take 250 ++ "..."))

/-- The age-specific activities section of `build_context_prompt`. -/
def activitySection (context : RagContext) : List String :=
  if context.age_specific_context.isEmpty then []
  else
    "\n=== EVIDENCE-BASED ACTIVITIES ===" ::
    ((context.age_specific_context.take 2).map
      (fun item => "• " ++ item.content.take 250 ++ "..."))

/-- Embedding of `RAGRetriever.build_context_prompt`: labelled sections for
trait, general-age and activity results, always terminated by the END
CONTEXT marker line — so the returned string is never empty. -/
def build_context_prompt (context : RagContext) : String :=
  joinNL ((traitSection context ++ generalSection context
    ++ activitySection context) ++ ["\n=== END CONTEXT ===\n"])

/-- The document count computed by `generate_initial_log`: trait contexts
plus general plus age-specific. -/
def docsFoundCount (context : RagContext) : Nat :=
  (context.trait_contexts.map (fun tc => tc.2.length)).sum
    + context.general_context.length + context.age_specific_context.length

/-- The RAG-relevant outcome of one `generate_initial_log` call:
whether the augmented-instruction path ran, and the rag metadata tags
attached to the returned dict. -/
structure GenOutcome where
  used_augmented_path : Bool
  rag_enhanced : Bool
  rag_context_used : Bool
  rag_documents_found : Nat
deriving DecidableEq, Repr

/-- Embedding of the RAG control flow of
`EnhancedLogGenerationService.generate_initial_log`: `rag_ready` abstracts
`_ensure_rag_ready()`, and `retrieval` the combined
`retrieve_for_traits` plus `build_context_prompt` try-block, which on
success yields the retrieval context.  The augmented path is guarded by
Python truthiness of the rag_context string; the rag_enhanced tag is set
from rag_context being not None. -/
def generate_initial_log (rag_ready : Bool)
    (retrieval : Except String RagContext) : GenOutcome :=
  let rc : Option String × Nat :=
    if rag_ready then
      match retrieval with
      | .ok context => (some (build_context_prompt context), docsFoundCount context)
      | .error _ => (none, 0)
    else (none, 0)
  let rag_context := rc.1
  let rag_docs_count := rc.2
  let augmented :=
    match rag_context with
    | some s => s != ""
    | none => false
  { used_augmented_path := augmented
    rag_enhanced := rag_context.isSome
    rag_context_used := rag_context.isSome
    rag_documents_found := rag_docs_count }

/-! Section: enhanced_agent.py instruction save, mutate, restore. -/

/-- The mutable state of the shared generation agent: its instruction. -/
structure AgentState where
  instruction : String
deriving DecidableEq, Repr

/-- Python try-finally: run the body, then apply the cleanup to the state
whether the body succeeded or raised. -/
def tryFinally {α : Type} (body : AgentState → Except String α × AgentState)
    (fin : AgentState → AgentState) (s : AgentState) :
    Except String α × AgentState :=
  let r := body s
  (r.1, fin r.2)

/-- Embedding of
`EnhancedLogGenerationService._generate_with_rag_context`: save the
original instruction, set the enhanced instruction, run the underlying
generation call (abstracted as `call`, which may itself read or write
agent state and may raise), and restore the original instruction in the
finally block.  The instruction builder
`_build_enhanced_instruction` is abstracted as `buildEnhanced`. -/
def generate_with_rag_context
    (call : AgentState → Except String String × AgentState)
    (buildEnhanced : String → String → String)
    (rag_context : String) (s : AgentState) :
    Except String String × AgentState :=
  let original_instruction := s.instruction
  tryFinally
    (fun s0 =>
      let enhanced_instruction := buildEnhanced original_instruction rag_context
      call { s0 with instruction := enhanced_instruction })
    (fun s2 => { s2 with instruction := original_instruction })
    s

/-- Python truthiness of an optional string. -/
def optTruthy : Option String → Bool
  | some s => s != ""
  | none => false

/-- Embedding of the instruction handling of
`RAGEnhancedChildCareChatbot.chat_with_medical_context`: when the medical
context is truthy and documents were found, save the instruction, append
the medical-context block, run the chat call under try-finally restoring
the instruction; otherwise run the unaugmented call directly. -/
def chat_with_medical_context
    (call : AgentState → Except String String × AgentState)
    (medical_context : Option String) (rag_docs_count : Nat)
    (s : AgentState) : Except String String × AgentState :=
  if optTruthy medical_context ∧ 0 < rag_docs_count then
    let original_instruction := s.instruction
    let enhanced_instruction :=
      original_instruction
        ++ "\n\nCURRENT MEDICAL CONTEXT (Use this evidence-based information):\n"
        ++ (medical_context.getD "")
        ++ "\n\nBased on this medical knowledge, provide your response following the SHORT and ACTIONABLE format above.\n"
    tryFinally
      (fun s0 =>
        let r := call { s0 with instruction := enhanced_instruction }
        (match r.1 with
         | .ok response => .ok ("🔥 RAG-ENHANCED MEDICAL ADVICE:\n" ++ response)
         | .error e => .error e,
         r.2))
      (fun s2 => { s2 with instruction := original_instruction })
      s
  else
    call s

/-! Section: auxiliary definitions used by the theorems, and concrete
inputs used by witnesses and counterexamples. -/

/-- Fingerprint of one result entry. -/
def fpItem (it : RItem) : String :=
  fingerprintOf it.content

/-- Whether a (query, document, score) triple survives the score filter and
carries the given fingerprint. -/
def tripleQualifies (thr : ℚ) (f : String) (t : String × Document × ℚ) : Bool :=
  decide (thr ≤ t.2.2) && (fingerprintOf t.2.1.page_content == f)

/-- Whether a retrieval attempt succeeded. -/
def isOkB (r : Except String RagContext) : Bool :=
  match r with
  | .ok _ => true
  | .error _ => false

/-- A concrete document used in witnesses. -/
def dGrowth : Document :=
  ⟨"growth mindset research for toddlers", []⟩

/-- A splitter that succeeds and returns its input unchanged. -/
def splitterId : List Document → Except String (List Document) :=
  fun ds => .ok ds

/-- A storage backend that always fails. -/
def addFail : List Document → List Document → Except String (List Document) :=
  fun _ _ => .error "chroma unavailable"

/-- A vector search that returns one high-scoring passage for any query
(score 0.9, written as an explicit rational so it evaluates). -/
def searchHigh : String → Nat → List (Document × ℚ) :=
  fun _ _ => [(⟨"curious minds thrive on exploration", []⟩, mkRat 9 10)]

/-- A vector search that returns one low-scoring passage for any query
(score 0.1). -/
def searchLow : String → Nat → List (Document × ℚ) :=
  fun _ _ => [(⟨"low relevance passage", []⟩, mkRat 1 10)]

/-- A generation call that raises but leaves agent state untouched. -/
def callRaise : AgentState → Except String String × AgentState :=
  fun t => (.error "model timeout", t)

/-! Section: helper lemmas shared by the claim theorems. -/

theorem joinNL_cons_of_ne_nil (x : String) (l : List String) (h : l ≠ []) :
    joinNL (x :: l) = x ++ "\n" ++ joinNL l := by
  cases l with
  | nil => exact absurd rfl h
  | cons y ys => rfl

theorem le_length_joinNL_append_singleton (xs : List String) (y : String) :
    y.length ≤ (joinNL (xs ++ [y])).length := by
  induction xs with
  | nil => simp [joinNL]
  | cons x xs ih =>
      have hne : xs ++ [y] ≠ [] := by simp
      rw [List.cons_append, joinNL_cons_of_ne_nil x (xs ++ [y]) hne]
      calc y.length ≤ (joinNL (xs ++ [y])).length := ih
        _ ≤ (x ++ "\n").length + (joinNL (xs ++ [y])).length := Nat.le_add_left _ _
        _ = ((x ++ "\n") ++ joinNL (xs ++ [y])).length := (String.length_append _ _).symm
        _ = (x ++ "\n" ++ joinNL (xs ++ [y])).length := rfl

theorem build_context_prompt_ne_empty (context : RagContext) :
    build_context_prompt context ≠ "" := by
  intro heq
  have h := le_length_joinNL_append_singleton
    (traitSection context ++ generalSection context ++ activitySection context)
    "\n=== END CONTEXT ===\n"
  rw [show (joinNL ((traitSection context ++ generalSection context
      ++ activitySection context) ++ ["\n=== END CONTEXT ===\n"]))
      = build_context_prompt context from rfl, heq] at h
  exact absurd h (by decide)

theorem mem_insertDesc {it x : RItem} :
    ∀ {l : List RItem}, it ∈ insertDesc x l → it = x ∨ it ∈ l := by
  intro l
  induction l with
  | nil => intro h; simp [insertDesc] at h; exact Or.inl h
  | cons y ys ih =>
      intro h
      unfold insertDesc at h
      split at h
      · rcases List.mem_cons.mp h with h1 | h2
        · exact Or.inl h1
        · exact Or.inr h2
      · rcases List.mem_cons.mp h with h1 | h2
        · exact Or.inr (List.mem_cons.mpr (Or.inl h1))
        · rcases ih h2 with h3 | h4
          · exact Or.inl h3
          · exact Or.inr (List.mem_cons.mpr (Or.inr h4))

theorem mem_sortDesc {it : RItem} :
    ∀ {l : List RItem}, it ∈ sortDesc l → it ∈ l := by
  intro l
  induction l with
  | nil => intro h; simp [sortDesc] at h
  | cons x xs ih =>
      intro h
      rcases mem_insertDesc h with h1 | h2
      · exact List.mem_cons.mpr (Or.inl h1)
      · exact List.mem_cons.mpr (Or.inr (ih h2))

theorem countP_insertDesc (p : RItem → Bool) (x : RItem) :
    ∀ (l : List RItem), (insertDesc x l).countP p = (x :: l).countP p := by
  intro l
  induction l with
  | nil => rfl
  | cons y ys ih =>
      unfold insertDesc
      split
      · rfl
      · rw [List.countP_cons, ih, List.countP_cons, List.countP_cons,
          List.countP_cons]
        omega

theorem countP_sortDesc (p : RItem → Bool) :
    ∀ (l : List RItem), (sortDesc l).countP p = l.countP p := by
  intro l
  induction l with
  | nil => rfl
  | cons x xs ih =>
      show (insertDesc x (sortDesc xs)).countP p = _
      rw [countP_insertDesc, List.countP_cons, ih, List.countP_cons]

theorem traitAccum_score_ge (thr : ℚ) :
    ∀ (l : List (String × Document × ℚ)) (seen : List String) {it : RItem},
      it ∈ traitAccum thr seen l → thr ≤ it.similarity_score := by
  intro l
  induction l with
  | nil => intro seen it h; simp [traitAccum] at h
  | cons t rest ih =>
      intro seen it h
      unfold traitAccum at h
      split at h
      · exact ih seen h
      · rename_i hscore
        split at h
        · exact ih seen h
        · rcases List.mem_cons.mp h with h1 | h2
          · subst h1
            exact le_of_not_lt hscore
          · exact ih _ h2

theorem traitAccum_countP_of_seen (thr : ℚ) (f : String) :
    ∀ (l : List (String × Document × ℚ)) (seen : List String), f ∈ seen →
      (traitAccum thr seen l).countP (fun it => fpItem it == f) = 0 := by
  intro l
  induction l with
  | nil => intro seen _; rfl
  | cons t rest ih =>
      intro seen hseen
      unfold traitAccum
      split
      · exact ih seen hseen
      · split
        · exact ih seen hseen
        · rename_i hnotseen
          rw [List.countP_cons]
          have hne : (fpItem (mkRItem t) == f) = false := by
            apply beq_false_of_ne
            intro heq
            apply hnotseen
            have hfpf : fingerprintOf t.2.1.page_content = f := heq
            rw [hfpf]
            exact hseen
          rw [hne]
          simpa using ih (fingerprintOf t.2.1.page_content :: seen)
            (List.mem_cons.mpr (Or.inr hseen))

theorem traitAccum_first_qualifying (thr : ℚ) (f : String) :
    ∀ (l : List (String × Document × ℚ)) (seen : List String), f ∉ seen →
      (l.filter (tripleQualifies thr f) = [] →
        (traitAccum thr seen l).countP (fun it => fpItem it == f) = 0) ∧
      (∀ t₀ rest, l.filter (tripleQualifies thr f) = t₀ :: rest →
        (traitAccum thr seen l).countP (fun it => fpItem it == f) = 1 ∧
        mkRItem t₀ ∈ traitAccum thr seen l) := by
  intro l
  induction l with
  | nil =>
      intro seen _
      exact ⟨fun _ => rfl, fun t₀ rest h => by simp at h⟩
  | cons t rest ih =>
      intro seen hseen
      constructor
      · intro hfilter
        have hq : tripleQualifies thr f t = false := by
          by_contra hq
          have := List.filter_eq_nil_iff.mp hfilter t (List.mem_cons_self t rest)
          exact this (by revert hq; cases tripleQualifies thr f t <;> simp)
        have hfilter2 : List.filter (tripleQualifies thr f) rest = [] := by
          rw [List.filter_cons_of_neg (ne_true_of_eq_false hq)] at hfilter
          exact hfilter
        unfold traitAccum
        split
        · exact (ih seen hseen).1 hfilter2
        · split
          · exact (ih seen hseen).1 hfilter2
          · rename_i hscore hinseen
            have hle : thr ≤ t.2.2 := le_of_not_lt hscore
            have hfp : (fingerprintOf t.2.1.page_content == f) = false := by
              unfold tripleQualifies at hq
              simpa [hle] using hq
            have hnotseen2 : f ∉ fingerprintOf t.2.1.page_content :: seen := by
              intro hmem
              rcases List.mem_cons.mp hmem with h1 | h2
              · exact absurd h1.symm (ne_of_beq_false hfp)
              · exact hseen h2
            have hrec : (traitAccum thr (fingerprintOf t.2.1.page_content :: seen)
                rest).countP (fun it => fpItem it == f) = 0 :=
              (ih (fingerprintOf t.2.1.page_content :: seen) hnotseen2).1 hfilter2
            rw [List.countP_cons]
            have hne : (fpItem (mkRItem t) == f) = false := hfp
            rw [hne, hrec]
            simp
      · intro t₀ rest₀ hfilter
        unfold traitAccum
        split
        · rename_i hscore
          have hq : tripleQualifies thr f t = false := by
            unfold tripleQualifies
            simp [not_le.mpr hscore]
          rw [List.filter_cons_of_neg (ne_true_of_eq_false hq)] at hfilter
          exact (ih seen hseen).2 t₀ rest₀ hfilter
        · rename_i hscore
          have hle : thr ≤ t.2.2 := le_of_not_lt hscore
          split
          · rename_i hinseen
            have hfp : (fingerprintOf t.2.1.page_content == f) = false := by
              apply beq_false_of_ne
              intro hEq
              exact hseen (hEq ▸ hinseen)
            have hq : tripleQualifies thr f t = false := by
              unfold tripleQualifies
              simp [hfp]
            rw [List.filter_cons_of_neg (ne_true_of_eq_false hq)] at hfilter
            exact (ih seen hseen).2 t₀ rest₀ hfilter
          · rename_i hinseen
            by_cases hfp : fingerprintOf t.2.1.page_content = f
            · have hq : tripleQualifies thr f t = true := by
                unfold tripleQualifies
                simp [hle, hfp]
              rw [List.filter_cons_of_pos hq] at hfilter
              have ht₀ : t₀ = t := List.head_eq_of_cons_eq hfilter.symm
              subst ht₀
              constructor
              · rw [List.countP_cons]
                have hbeq : (fpItem (mkRItem t₀) == f) = true := by
                  simpa [fpItem, mkRItem, fingerprintOf] using hfp
                rw [hbeq]
                have h0 := traitAccum_countP_of_seen thr f rest
                  (fingerprintOf t₀.2.1.page_content :: seen)
                  (List.mem_cons.mpr (Or.inl hfp.symm))
                simp [h0]
              · exact List.mem_cons.mpr (Or.inl rfl)
            · have hq : tripleQualifies thr f t = false := by
                unfold tripleQualifies
                simp [beq_false_of_ne hfp]
              rw [List.filter_cons_of_neg (ne_true_of_eq_false hq)] at hfilter
              have hnotseen2 : f ∉ fingerprintOf t.2.1.page_content :: seen := by
                intro hmem
                rcases List.mem_cons.mp hmem with h1 | h2
                · exact hfp h1.symm
                · exact hseen h2
              have hrec := (ih (fingerprintOf t.2.1.page_content :: seen) hnotseen2).2
                t₀ rest₀ hfilter
              constructor
              · rw [List.countP_cons]
                have hne : (fpItem (mkRItem t) == f) = false :=
                  beq_false_of_ne (by simpa [fpItem, mkRItem, fingerprintOf] using hfp)
                rw [hne, hrec.1]
                simp
              · exact List.mem_cons.mpr (Or.inr hrec.2)

theorem getMeta_setMeta_self :
    ∀ (m : List (String × MetaValue)) (k : String) (v : MetaValue),
      getMeta (setMeta m k v) k = some v := by
  intro m
  induction m with
  | nil =>
      intro k v
      show getMeta [(k, v)] k = some v
      rw [getMeta, List.find?_cons_of_pos _ (by simp)]
      rfl
  | cons p rest ih =>
      intro k v
      unfold setMeta
      split
      · rw [getMeta, List.find?_cons_of_pos _ (by simp)]
        rfl
      · rename_i hpk
        rw [getMeta, List.find?_cons_of_neg _ (by simpa using hpk)]
        exact ih k v

theorem getMeta_setMeta_ne :
    ∀ (m : List (String × MetaValue)) (k kq : String) (v : MetaValue),
      kq ≠ k → getMeta (setMeta m k v) kq = getMeta m kq := by
  intro m
  induction m with
  | nil =>
      intro k kq v h
      show getMeta [(k, v)] kq = getMeta [] kq
      rw [getMeta, List.find?_cons_of_neg _ (by simp; exact fun hh => h hh.symm)]
      rfl
  | cons p rest ih =>
      intro k kq v h
      unfold setMeta
      split
      · rename_i hpk
        rw [getMeta, List.find?_cons_of_neg _ (by simp; exact fun hh => h hh.symm)]
        rw [getMeta, List.find?_cons_of_neg _
          (by simp; rw [hpk]; exact fun hh => h hh.symm)]
      · rename_i hpk
        by_cases hq : p.1 = kq
        · rw [getMeta, List.find?_cons_of_pos _ (by simp [hq]),
            getMeta, List.find?_cons_of_pos _ (by simp [hq])]
        · rw [getMeta, List.find?_cons_of_neg _ (by simp [hq]),
            getMeta, List.find?_cons_of_neg _ (by simp [hq])]
          exact ih k kq v h

theorem classifyFromScores_eq (r a g : Nat) :
    classifyFromScores r a g =
      if a ≤ r ∧ g ≤ r then (if r = 0 then "general" else "research")
      else if g ≤ a then (if a = 0 then "general" else "activity")
      else (if g = 0 then "general" else "guideline") := by
  simp only [classifyFromScores, ge_iff_le]
  by_cases h1 : a ≤ r ∧ g ≤ r
  · simp [h1]
  · simp only [if_neg h1]
    by_cases h2 : g ≤ a
    · simp [h1, h2]
    · simp [h1, h2]

/-! Section: the claim theorems. -/

/-- C1, counterexample: the general-age retrieval path applies no score
floor — with a store whose only match scores 0.1, `retrieve_age_context`
returns that passage even though 0.1 is far below the default 0.7
threshold. -/
theorem age_context_returns_below_floor :
    retrieve_age_context searchLow 24 3
      = [⟨"low relevance passage", [], mkRat 1 10,
          "2 year old development milestones"⟩]
    ∧ mkRat 1 10 < mkRat 7 10 := by
  constructor
  · rfl
  · decide

/-- C1, amended: only the trait-specific retrieval path enforces the score
floor: every entry returned by `retrieve_trait_context` has
similarity_score at least min_score_threshold; the general-age and
age-specific-activities paths apply no floor (see the counterexample). -/
theorem trait_context_score_floor (search : String → Nat → List (Document × ℚ))
    (trait : String) (age : Option Nat) (k : Nat) (thr : ℚ) (it : RItem)
    (h : it ∈ retrieve_trait_context search trait age k thr) :
    thr ≤ it.similarity_score := by
  have h1 : it ∈ sortDesc (traitMerged search trait age k thr) :=
    List.mem_of_mem_take h
  have h2 : it ∈ traitMerged search trait age k thr := mem_sortDesc h1
  exact traitAccum_score_ge thr (traitTriples search trait age k) [] h2

/-- Witness for the C1 amended theorem at a concrete store and trait. -/
theorem trait_context_score_floor_witness :
    mkRat 7 10
      ≤ (RItem.mk "curious minds thrive on exploration" [] (mkRat 9 10)
          "curiosity").similarity_score :=
  trait_context_score_floor searchHigh "curiosity" none 5 (mkRat 7 10)
    ⟨"curious minds thrive on exploration", [], mkRat 9 10, "curiosity"⟩
    (by decide)

/-- C2, counterexample: with RAG ready and a retrieval that succeeds but
finds zero passages, the assembled context is the bare END-CONTEXT marker,
which is truthy — so the augmented path runs and rag_enhanced is true even
though rag_documents_found is 0. -/
theorem generate_initial_log_zero_docs :
    (generate_initial_log true (.ok ⟨[], [], []⟩)).rag_documents_found = 0 ∧
    (generate_initial_log true (.ok ⟨[], [], []⟩)).used_augmented_path = true ∧
    (generate_initial_log true (.ok ⟨[], [], []⟩)).rag_enhanced = true := by
  refine ⟨rfl, ?_, rfl⟩
  rfl

/-- C2, amended: the Enhanced Generation Adapter takes the
augmented-instruction path if and only if RAG is ready and retrieval did
not raise — regardless of how many passages were found, because the
assembled context string always ends with the non-empty END-CONTEXT marker;
the rag_enhanced flag equals exactly whether the augmented path ran. -/
theorem generate_initial_log_augments_iff (rag_ready : Bool)
    (retrieval : Except String RagContext) :
    (generate_initial_log rag_ready retrieval).used_augmented_path
      = (rag_ready && isOkB retrieval) ∧
    (generate_initial_log rag_ready retrieval).rag_enhanced
      = (generate_initial_log rag_ready retrieval).used_augmented_path := by
  cases rag_ready with
  | false => exact ⟨rfl, rfl⟩
  | true =>
      cases retrieval with
      | error e => exact ⟨rfl, rfl⟩
      | ok context =>
          have hbne : (build_context_prompt context != "") = true :=
            bne_iff_ne.mpr (build_context_prompt_ne_empty context)
          exact ⟨hbne, hbne.symm⟩

/-- C3, counterexample: loading the same one-file category twice with
force_reload false re-embeds on the second call and grows the collection —
`load_category` has no already-loaded check. -/
theorem load_category_reembeds :
    (load_category true [dGrowth] splitterId false
        (load_category true [dGrowth] splitterId false []).store).embed_calls
      = 1 ∧
    (load_category true [dGrowth] splitterId false
        (load_category true [dGrowth] splitterId false []).store).store.length
      = (load_category true [dGrowth] splitterId false []).store.length + 1 := by
  constructor
  · rfl
  · rfl

/-- C3, amended: `load_category` performs no idempotency check at all.
Whenever the category directory exists and contains documents, every call —
with force_reload true or false — re-chunks and re-embeds them, appending
the chunks to the collection; force_reload only additionally triggers the
warning of the unimplemented category-scoped deletion. -/
theorem load_category_always_embeds (dirDocs : List Document)
    (splitter : List Document → Except String (List Document))
    (force_reload : Bool) (store : List Document) (h : dirDocs ≠ []) :
    (load_category true dirDocs splitter force_reload store).embed_calls = 1 ∧
    (load_category true dirDocs splitter force_reload store).store
      = store ++ chunk_documents splitter dirDocs ∧
    (load_category true dirDocs splitter force_reload store).returned
      = (chunk_documents splitter dirDocs).length ∧
    (load_category true dirDocs splitter force_reload store).delete_warnings
      = (if force_reload then 1 else 0) := by
  have hne : dirDocs.isEmpty = false := by
    cases dirDocs with
    | nil => exact absurd rfl h
    | cons d ds => rfl
  refine ⟨?_, ?_, ?_, ?_⟩ <;> simp [load_category, hne]

/-- Witness for the C3 amended theorem at a concrete category. -/
theorem load_category_always_embeds_witness :
    (load_category true [dGrowth] splitterId true []).embed_calls = 1 ∧
    (load_category true [dGrowth] splitterId true []).store
      = [] ++ chunk_documents splitterId [dGrowth] ∧
    (load_category true [dGrowth] splitterId true []).returned
      = (chunk_documents splitterId [dGrowth]).length ∧
    (load_category true [dGrowth] splitterId true []).delete_warnings
      = (if true then 1 else 0) :=
  load_category_always_embeds [dGrowth] splitterId true [] (by decide)

/-- C4, confirmed: both enhanced adapters restore the shared agent
instruction byte-for-byte after the call.  The planner adapter restores it
in a finally block no matter what the underlying call does to agent state;
the chatbot adapter restores it in its augmented branch and leaves it
untouched in its fallback branch (where the underlying generation call,
which does not write the instruction, runs directly). -/
theorem instruction_restored
    (call : AgentState → Except String String × AgentState)
    (buildEnhanced : String → String → String)
    (rag_context : String) (medical_context : Option String)
    (rag_docs_count : Nat) (s : AgentState)
    (hcall : ∀ t, ((call t).2).instruction = t.instruction) :
    ((generate_with_rag_context call buildEnhanced rag_context s).2).instruction
      = s.instruction ∧
    ((chat_with_medical_context call medical_context rag_docs_count s).2).instruction
      = s.instruction := by
  constructor
  · rfl
  · unfold chat_with_medical_context
    split
    · rfl
    · exact hcall s

/-- Witness for C4 with a call that raises (and, in the fallback branch,
one that leaves the instruction unchanged). -/
theorem instruction_restored_witness :
    ((generate_with_rag_context callRaise (fun a b => a ++ b) "ctx"
        ⟨"base instruction"⟩).2).instruction = "base instruction" ∧
    ((chat_with_medical_context callRaise (some "medical context") 2
        ⟨"base instruction"⟩).2).instruction = "base instruction" :=
  instruction_restored callRaise (fun a b => a ++ b) "ctx"
    (some "medical context") 2 ⟨"base instruction"⟩ (fun _ => rfl)

/-- C5, confirmed: with a non-empty collection, `load_all_knowledge` with
force_reload false is a no-op — no embedding happens, the store is
unchanged, the existing count is returned — and a second call returns the
same count. -/
theorem load_all_idempotent_noop (processed store : List Document)
    (h : 0 < store.length) :
    load_all_knowledge processed false store = ⟨store, store.length, 0⟩ ∧
    (load_all_knowledge processed false
        (load_all_knowledge processed false store).store).returned
      = (load_all_knowledge processed false store).returned := by
  have h1 : load_all_knowledge processed false store = ⟨store, store.length, 0⟩ := by
    simp [load_all_knowledge, h]
  refine ⟨h1, ?_⟩
  rw [h1]
  simp [load_all_knowledge, h]

/-- Witness for C5 at a one-document collection. -/
theorem load_all_idempotent_noop_witness :
    load_all_knowledge [] false [dGrowth] = ⟨[dGrowth], [dGrowth].length, 0⟩ ∧
    (load_all_knowledge [] false
        (load_all_knowledge [] false [dGrowth]).store).returned
      = (load_all_knowledge [] false [dGrowth]).returned :=
  load_all_idempotent_noop [] [dGrowth] (by decide)

/-- C6, counterexample: on the text "study game" the research and activity
scores tie at 1, yet classification returns "research", not "general" —
Python max breaks ties by key insertion order. -/
theorem classify_tie_not_general :
    indicatorScore (lowerString "study game") research_indicators = 1 ∧
    indicatorScore (lowerString "study game") activity_indicators = 1 ∧
    indicatorScore (lowerString "study game") guideline_indicators = 0 ∧
    classify_content_type "study game" = "research" := by
  refine ⟨?_, ?_, ?_, ?_⟩ <;> decide

/-- C6, amended: classification picks the keyword set with the highest
presence count, breaking ties in the fixed order research, then activity,
then guideline; "general" is returned exactly when all three counts are
zero — not on ties. -/
theorem classify_tie_break (r a g : Nat) :
    (classifyFromScores r a g = "general" ↔ r = 0 ∧ a = 0 ∧ g = 0) ∧
    (a ≤ r → g ≤ r → r ≠ 0 → classifyFromScores r a g = "research") ∧
    (r < a → g ≤ a → classifyFromScores r a g = "activity") ∧
    (r < g → a < g → classifyFromScores r a g = "guideline") ∧
    (∀ text, classify_content_type text
      = classifyFromScores
          (indicatorScore (lowerString text) research_indicators)
          (indicatorScore (lowerString text) activity_indicators)
          (indicatorScore (lowerString text) guideline_indicators)) := by
  refine ⟨?_, ?_, ?_, ?_, fun _ => rfl⟩
  · rw [classifyFromScores_eq]
    by_cases h1 : a ≤ r ∧ g ≤ r
    · rw [if_pos h1]
      by_cases h2 : r = 0
      · rw [if_pos h2]
        exact ⟨fun _ => ⟨h2, by omega, by omega⟩, fun _ => rfl⟩
      · rw [if_neg h2]
        exact ⟨fun hcontra => absurd hcontra (by decide),
          fun hz => absurd hz.1 h2⟩
    · rw [if_neg h1]
      by_cases h3 : g ≤ a
      · rw [if_pos h3]
        by_cases h4 : a = 0
        · exact absurd ⟨by omega, by omega⟩ h1
        · rw [if_neg h4]
          exact ⟨fun hcontra => absurd hcontra (by decide),
            fun hz => absurd hz.2.1 h4⟩
      · by_cases h5 : g = 0
        · exact absurd (by omega : g ≤ a) h3
        · rw [if_neg h3, if_neg h5]
          exact ⟨fun hcontra => absurd hcontra (by decide),
            fun hz => absurd hz.2.2 h5⟩
  · intro ha hg hr
    rw [classifyFromScores_eq, if_pos ⟨ha, hg⟩, if_neg hr]
  · intro ha hg
    have h1 : ¬(a ≤ r ∧ g ≤ r) := by omega
    have h2 : a ≠ 0 := by omega
    rw [classifyFromScores_eq, if_neg h1, if_pos hg, if_neg h2]
  · intro hr ha
    have h1 : ¬(a ≤ r ∧ g ≤ r) := by omega
    have h2 : ¬(g ≤ a) := by omega
    have h3 : g ≠ 0 := by omega
    rw [classifyFromScores_eq, if_neg h1, if_neg h2, if_neg h3]

/-- Witness for the C6 amended theorem: a research-dominant text. -/
theorem classify_tie_break_witness :
    classifyFromScores 2 1 0 = "research" :=
  (classify_tie_break 2 1 0).2.1 (by decide) (by decide) (by decide)

/-- C7, confirmed: embedding an empty list is a warned no-op that never
touches storage, and for a non-empty list a storage failure propagates to
the caller as an error. -/
theorem embed_documents_contract
    (add : List Document → List Document → Except String (List Document))
    (store : List Document) :
    embed_documents add store [] = .ok ⟨store, true, false⟩ ∧
    (∀ documents e, documents ≠ [] → add store documents = .error e →
      embed_documents add store documents = .error e) := by
  refine ⟨rfl, ?_⟩
  intro documents e hne hadd
  cases documents with
  | nil => exact absurd rfl hne
  | cons d ds => simp [embed_documents, hadd]

/-- Witness for C7 with a failing backend. -/
theorem embed_documents_contract_witness :
    embed_documents addFail [] [dGrowth] = .error "chroma unavailable" :=
  (embed_documents_contract addFail []).2 [dGrowth] "chroma unavailable"
    (by decide) rfl

/-- C8, confirmed: within one trait retrieval, when any query result
qualifies (score at or above the threshold) with a given content
fingerprint, the merged deduplicated list contains exactly one entry with
that fingerprint — the first qualifying occurrence across the reformulated
queries, in order — and the final ranked, truncated result still contains
at most one such entry. -/
theorem trait_dedup_first_occurrence
    (search : String → Nat → List (Document × ℚ)) (trait : String)
    (age : Option Nat) (k : Nat) (thr : ℚ) (f : String)
    (t₀ : String × Document × ℚ) (rest : List (String × Document × ℚ))
    (hfilter : (traitTriples search trait age k).filter (tripleQualifies thr f)
      = t₀ :: rest) :
    (traitMerged search trait age k thr).countP (fun it => fpItem it == f) = 1 ∧
    mkRItem t₀ ∈ traitMerged search trait age k thr ∧
    (retrieve_trait_context search trait age k thr).countP
      (fun it => fpItem it == f) ≤ 1 := by
  have h := (traitAccum_first_qualifying thr f
    (traitTriples search trait age k) [] (by simp)).2 t₀ rest hfilter
  refine ⟨h.1, h.2, ?_⟩
  have hsorted : (sortDesc (traitMerged search trait age k thr)).countP
      (fun it => fpItem it == f) = 1 := by
    rw [countP_sortDesc]
    exact h.1
  calc (retrieve_trait_context search trait age k thr).countP
        (fun it => fpItem it == f)
      ≤ (sortDesc (traitMerged search trait age k thr)).countP
        (fun it => fpItem it == f) :=
        (List.take_sublist k _).countP_le _
    _ = 1 := hsorted

/-- Witness for C8: all four reformulated queries hit the same passage;
the merged list keeps it exactly once, from the first query. -/
theorem trait_dedup_first_occurrence_witness :
    (traitMerged searchHigh "focus" none 5 (mkRat 7 10)).countP
      (fun it => fpItem it == "curious minds thrive on exploration") = 1 ∧
    mkRItem ("focus", ⟨"curious minds thrive on exploration", []⟩, mkRat 9 10)
      ∈ traitMerged searchHigh "focus" none 5 (mkRat 7 10) ∧
    (retrieve_trait_context searchHigh "focus" none 5 (mkRat 7 10)).countP
      (fun it => fpItem it == "curious minds thrive on exploration") ≤ 1 :=
  trait_dedup_first_occurrence searchHigh "focus" none 5 (mkRat 7 10)
    "curious minds thrive on exploration"
    ("focus", ⟨"curious minds thrive on exploration", []⟩, mkRat 9 10)
    [("focus development",
       ⟨"curious minds thrive on exploration", []⟩, mkRat 9 10),
     ("focus activities",
       ⟨"curious minds thrive on exploration", []⟩, mkRat 9 10),
     ("focus intervention strategies",
       ⟨"curious minds thrive on exploration", []⟩, mkRat 9 10)]
    (by decide)

/-- C9, confirmed: for any minimum length of at least one character, the
quality filter never divides by zero — every document reaches the
alphabetic-ratio division only after passing the length check, so the
divisor is positive and the whole filter returns ok. -/
theorem quality_filter_no_div_by_zero (documents : List Document)
    (min_length : Nat) (min_relevance : ℚ) (h : 1 ≤ min_length) :
    ∃ out, filter_low_quality_chunks documents min_length min_relevance
      = .ok out := by
  induction documents with
  | nil => exact ⟨[], rfl⟩
  | cons doc rest ih =>
      obtain ⟨tail, htail⟩ := ih
      have hq : ∃ b, passesQuality doc min_length min_relevance = .ok b := by
        unfold passesQuality
        split
        · exact ⟨false, rfl⟩
        · rename_i hlenOK
          split
          · exact ⟨false, rfl⟩
          · have hlen : doc.page_content.length ≠ 0 := by
              intro h0
              apply hlenOK
              omega
            have hok : alphaRatio doc.page_content
                = .ok ((alphaCount doc.page_content : ℚ)
                    / (doc.page_content.length : ℚ)) := by
              unfold alphaRatio
              rw [if_neg hlen]
            rw [hok]
            refine ⟨if ((alphaCount doc.page_content : ℚ)
                / (doc.page_content.length : ℚ)) < 1 / 2 then false else true, ?_⟩
            show (if ((alphaCount doc.page_content : ℚ)
                  / (doc.page_content.length : ℚ)) < 1 / 2 then
                (Except.ok false : Except String Bool) else .ok true)
              = .ok (if ((alphaCount doc.page_content : ℚ)
                  / (doc.page_content.length : ℚ)) < 1 / 2 then false else true)
            split <;> rfl
      obtain ⟨b, hb⟩ := hq
      refine ⟨if b then doc :: tail else tail, ?_⟩
      unfold filter_low_quality_chunks
      rw [hb, htail]

/-- Witness for C9: an empty-content document with min_length one — the
very input that would divide by zero without the length check. -/
theorem quality_filter_no_div_by_zero_witness :
    ∃ out, filter_low_quality_chunks [⟨"", []⟩] 1 (1 / 10) = .ok out :=
  quality_filter_no_div_by_zero [⟨"", []⟩] 1 (1 / 10) (by decide)

/-- C10, confirmed: `chunk_documents` never raises.  When the splitter
succeeds on a non-empty input, every returned chunk carries chunk_id equal
to its index and total_chunks equal to the returned length; when the
splitter raises, the exception is swallowed and the input documents are
returned unchanged, without chunk metadata. -/
theorem chunk_documents_contract
    (splitter : List Document → Except String (List Document))
    (documents : List Document) :
    (∀ chunked, splitter documents = .ok chunked → documents ≠ [] →
      (chunk_documents splitter documents).length = chunked.length ∧
      (∀ (i : Nat) (doc2 : Document),
        (chunk_documents splitter documents)[i]? = some doc2 →
        getMeta doc2.metadata "chunk_id" = some (MetaValue.nat i) ∧
        getMeta doc2.metadata "total_chunks"
          = some (MetaValue.nat chunked.length))) ∧
    (∀ e, splitter documents = .error e →
      chunk_documents splitter documents = documents) := by
  constructor
  · intro chunked hok hne
    have hne2 : documents.isEmpty = false := by
      cases documents with
      | nil => exact absurd rfl hne
      | cons d ds => rfl
    have hrepr : chunk_documents splitter documents
        = chunked.mapIdx (fun i doc =>
            let m1 := setMeta doc.metadata "chunk_id" (MetaValue.nat i)
            let m2 := setMeta m1 "total_chunks" (MetaValue.nat chunked.length)
            { doc with metadata := m2 }) := by
      unfold chunk_documents
      rw [if_neg (by simp [hne2]), hok]
    constructor
    · rw [hrepr]
      exact List.length_mapIdx ..
    · intro i doc2 hdoc2
      rw [hrepr] at hdoc2
      obtain ⟨hi, hval⟩ := List.getElem?_eq_some_iff.mp hdoc2
      rw [List.getElem_mapIdx] at hval
      subst hval
      constructor
      · exact (getMeta_setMeta_ne _ _ _ _ (by decide)).trans
          (getMeta_setMeta_self _ _ _)
      · exact getMeta_setMeta_self _ _ _
  · intro e herr
    cases documents with
    | nil => rfl
    | cons d ds => simp [chunk_documents, herr]

/-- Witness for C10: a failing splitter returns the input unchanged. -/
theorem chunk_documents_contract_witness :
    chunk_documents (fun _ => .error "splitter crashed") [dGrowth] = [dGrowth] :=
  (chunk_documents_contract (fun _ => .error "splitter crashed") [dGrowth]).2
    "splitter crashed" rfl

end BrightGen
